/-
  Verification development for vram-lock: a VRAM integrity stress tool.

  The repository has two backend implementations of the same core state
  machine:
    - src/vram_lock.cpp         (CUDA driver API)
    - src/vram_lock_vulcan.cpp  (Vulkan)

  We embed the core allocate-verify-lock state machine of both files.
  Backend device operations (allocation outcomes and the contents the two
  device-to-host readbacks deliver) are inputs to each step; display-only
  fields (dev_name, last_status, last_md5_*) and the host scratch buffers
  themselves are not part of the embedded state — the readback contents are
  supplied per step.  Process termination via std::exit (die_cuda / die /
  internal-error checks) is modelled by `Option` results (`none` = the
  process exits) and by the `fatal` loop status; the non-returning
  sleep_forever wait is the absorbing `parked` loop status.
-/
import Mathlib

namespace VramLock

/-- `FILL_BYTE`: the fixed fill pattern byte, `0xA5` in both backends. -/
def FILL_BYTE : Nat := 0xA5

/-- `count_char`: number of occurrences of `c` in `v`
    (src/vram_lock.cpp lines 101-107; identical in the Vulkan file). -/
def count_char : List Char → Char → Nat
  | [], _ => 0
  | x :: xs, c => (if x = c then 1 else 0) + count_char xs c

/-- `finalize_map_after_oom` (src/vram_lock.cpp lines 109-115; identical in
    the Vulkan file): after OOM, freed blocks (`'#'` or `'?'`) become `'.'`;
    `'X'` is kept as-is. -/
def finalize_map_after_oom (map : List Char) : List Char :=
  map.map (fun c => if c = '#' ∨ c = '?' then '.' else c)

/-- `cuMemsetD8(dptr, value, n)` writes `n` copies of the low byte of
    `value` to the device region.  We record the byte sequence written. -/
def memset_d8 (n : Nat) (value : Nat) : List Nat :=
  List.replicate n (value % 256)

namespace Cuda

/-- Outcome of one backend `cuMemAlloc` call, supplied as an input to the
    model.  `err code` stands for the CUresult `code + 1`, so an error is
    nonzero by construction (cuMemAlloc never fails with CUDA_SUCCESS). -/
inductive AllocResult where
  | ok (dptr : Nat)
  | err (code : Nat)
deriving DecidableEq, Repr

/-- `VramLockState` (src/vram_lock.cpp lines 182-219), display-only string
    fields and host scratch buffers omitted. -/
structure VramLockState where
  gpu_index : Nat
  slice_mib : Nat
  slice_bytes : Nat
  allocations : List Nat
  map : List Char
  ok_count : Nat
  bad_count : Nat
  finalized_after_oom : Bool
deriving DecidableEq, Repr

/-- `VramLockState::make_allocation` (lines 221-229): on backend success
    push the device pointer and a `'?'` map glyph and return CUDA_SUCCESS
    (0); on failure return the backend's CUresult unchanged, without
    touching the state. -/
def VramLockState.make_allocation (st : VramLockState) (r : AllocResult) :
    VramLockState × Nat :=
  match r with
  | .err code => (st, code + 1)
  | .ok dptr =>
      ({ st with allocations := st.allocations ++ [dptr],
                 map := st.map ++ ['?'] }, 0)

/-- `VramLockState::test_pointer` (lines 231-273).  The contents the two
    `cuMemcpyDtoH` readbacks deliver into `host1`/`host2` are inputs.
    `none` models the `std::exit(1)` on the index-range check; otherwise
    the two host copies are compared byte-for-byte (`std::memcmp`): on
    mismatch the glyph becomes `'X'` and `bad_count` is incremented, on
    match the glyph becomes `'#'` and `ok_count` is incremented. -/
def VramLockState.test_pointer (st : VramLockState) (idx : Nat)
    (host1 host2 : List Nat) : Option VramLockState :=
  if idx ≥ st.allocations.length ∨ idx ≥ st.map.length then none
  else if host1 ≠ host2 then
    some { st with map := st.map.set idx 'X', bad_count := st.bad_count + 1 }
  else
    some { st with map := st.map.set idx '#', ok_count := st.ok_count + 1 }

/-- `VramLockState::free_all_except_faulty` (lines 276-297): fatal
    (`none`) if the allocations/map lengths mismatch; otherwise keep
    exactly the allocations whose glyph is `'X'` and free the rest
    (`cuMemFree`, modelled as succeeding; the freed pointers are returned
    as evidence).  The map itself is not modified here. -/
def VramLockState.free_all_except_faulty (st : VramLockState) :
    Option (VramLockState × List Nat) :=
  if st.allocations.length ≠ st.map.length then none
  else
    let pairs := st.allocations.zip st.map
    let kept := (pairs.filter (fun p => p.2 == 'X')).map Prod.fst
    let freed := (pairs.filter (fun p => p.2 != 'X')).map Prod.fst
    some ({ st with allocations := kept }, freed)

/-- One iteration input of the main loop: the backend allocation outcome
    and, for the verification step, the two readback contents. -/
inductive StepInput where
  | step (r : AllocResult) (host1 host2 : List Nat)
deriving DecidableEq, Repr

/-- Status of the session loop (main, lines 370-427): `running` is the top
    of the while loop, `parked` is the non-returning `sleep_forever` wait
    after OOM, `fatal` is a `std::exit(1)` on an internal error. -/
inductive LoopStatus where
  | running (st : VramLockState)
  | parked (st : VramLockState)
  | fatal
deriving DecidableEq, Repr

/-- One iteration of main's while loop (lines 370-427): try
    `make_allocation`; if it returns a nonzero CUresult, run
    `free_all_except_faulty`, `finalize_map_after_oom`, set
    `finalized_after_oom` and park forever; otherwise verify the freshly
    pushed slice with `test_pointer`. -/
def session_step (s : LoopStatus) (inp : StepInput) : LoopStatus :=
  match s with
  | .fatal => .fatal
  | .parked st => .parked st
  | .running st =>
    match inp with
    | .step r host1 host2 =>
      let p := st.make_allocation r
      if p.2 ≠ 0 then
        match p.1.free_all_except_faulty with
        | none => .fatal
        | some (st1, _) =>
            .parked { st1 with map := finalize_map_after_oom st1.map,
                               finalized_after_oom := true }
      else
        let this_idx := p.1.allocations.length - 1
        match p.1.test_pointer this_idx host1 host2 with
        | none => .fatal
        | some st2 => .running st2

/-- The state constructed at startup (constructor, lines 207-219). -/
def initial_state (gpu_index slice_mib slice_bytes : Nat) : VramLockState :=
  { gpu_index := gpu_index, slice_mib := slice_mib,
    slice_bytes := slice_bytes, allocations := [], map := [],
    ok_count := 0, bad_count := 0, finalized_after_oom := false }

/-- Running the session loop over a list of iteration inputs. -/
def run_session (s : LoopStatus) (script : List StepInput) : LoopStatus :=
  script.foldl session_step s

/-- A state observable at the top of the while loop (iteration boundary). -/
def Reachable (st : VramLockState) : Prop :=
  ∃ g m b script,
    run_session (.running (initial_state g m b)) script = .running st

end Cuda

namespace Vulkan

/-- `Slice` (src/vram_lock_vulcan.cpp lines 253-257): a device-local
    buffer with its bound memory.  Handles are abstract identifiers. -/
structure Slice where
  buffer : Nat
  memory : Nat
  size : Nat
deriving DecidableEq, Repr

/-- Outcome of one `create_buffer_and_memory` call for a device-local
    slice, supplied as an input.  `err code` is the VkResult `code + 1`:
    any failure is a nonzero VkResult. -/
inductive AllocResult where
  | ok (buffer memory : Nat)
  | err (code : Nat)
deriving DecidableEq, Repr

/-- `VramLockState` (src/vram_lock_vulcan.cpp lines 427-465), Vulkan
    context, staging buffer and display-only fields omitted. -/
structure VramLockState where
  gpu_index : Nat
  slice_mib : Nat
  slice_bytes : Nat
  slices : List Slice
  map : List Char
  ok_count : Nat
  bad_count : Nat
  finalized_after_oom : Bool
deriving DecidableEq, Repr

/-- `VramLockState::make_allocation` (lines 507-529): on success push the
    new `Slice` (size = slice_bytes) and a `'?'` glyph and return
    VK_SUCCESS (0); on failure destroy any partial resources and return
    the VkResult without mutating the registry. -/
def VramLockState.make_allocation (st : VramLockState) (r : AllocResult) :
    VramLockState × Nat :=
  match r with
  | .err code => (st, code + 1)
  | .ok buffer memory =>
      ({ st with
          slices := st.slices ++
            [{ buffer := buffer, memory := memory, size := st.slice_bytes }],
          map := st.map ++ ['?'] }, 0)

/-- `VramLockState::test_slice` (lines 623-659).  The contents the two
    `readback_to_host` calls deliver into `host1`/`host2` are inputs.
    `none` models the fatal `die` on the index-range check; otherwise the
    two host copies are compared byte-for-byte (`std::memcmp`). -/
def VramLockState.test_slice (st : VramLockState) (idx : Nat)
    (host1 host2 : List Nat) : Option VramLockState :=
  if idx ≥ st.slices.length ∨ idx ≥ st.map.length then none
  else if host1 ≠ host2 then
    some { st with map := st.map.set idx 'X', bad_count := st.bad_count + 1 }
  else
    some { st with map := st.map.set idx '#', ok_count := st.ok_count + 1 }

/-- `VramLockState::free_all_except_faulty` (lines 661-676): fatal
    (`none`) on a slices/map length mismatch; keeps exactly the slices
    whose glyph is `'X'`, destroys the rest (returned as evidence). -/
def VramLockState.free_all_except_faulty (st : VramLockState) :
    Option (VramLockState × List Slice) :=
  if st.slices.length ≠ st.map.length then none
  else
    let pairs := st.slices.zip st.map
    let kept := (pairs.filter (fun p => p.2 == 'X')).map Prod.fst
    let destroyed := (pairs.filter (fun p => p.2 != 'X')).map Prod.fst
    some ({ st with slices := kept }, destroyed)

/-- One iteration input of the Vulkan main loop. -/
inductive StepInput where
  | step (r : AllocResult) (host1 host2 : List Nat)
deriving DecidableEq, Repr

/-- Status of the Vulkan session loop (main, lines 726-774). -/
inductive LoopStatus where
  | running (st : VramLockState)
  | parked (st : VramLockState)
  | fatal
deriving DecidableEq, Repr

/-- One iteration of the Vulkan main loop (lines 726-774), mirroring the
    CUDA loop: allocate, on failure reclaim + finalize + park, on success
    verify the freshly pushed slice. -/
def session_step (s : LoopStatus) (inp : StepInput) : LoopStatus :=
  match s with
  | .fatal => .fatal
  | .parked st => .parked st
  | .running st =>
    match inp with
    | .step r host1 host2 =>
      let p := st.make_allocation r
      if p.2 ≠ 0 then
        match p.1.free_all_except_faulty with
        | none => .fatal
        | some (st1, _) =>
            .parked { st1 with map := finalize_map_after_oom st1.map,
                               finalized_after_oom := true }
      else
        let this_idx := p.1.slices.length - 1
        match p.1.test_slice this_idx host1 host2 with
        | none => .fatal
        | some st2 => .running st2

/-- The state constructed at startup (constructor, lines 455-465). -/
def initial_state (gpu_index slice_mib slice_bytes : Nat) : VramLockState :=
  { gpu_index := gpu_index, slice_mib := slice_mib,
    slice_bytes := slice_bytes, slices := [], map := [],
    ok_count := 0, bad_count := 0, finalized_after_oom := false }

/-- Running the Vulkan session loop over a list of iteration inputs. -/
def run_session (s : LoopStatus) (script : List StepInput) : LoopStatus :=
  script.foldl session_step s

/-- `fill_pattern` (lines 591-621) replicates FILL_BYTE across the four
    bytes of a 32-bit word for `vkCmdFillBuffer`. -/
def fill_pattern_word : Nat :=
  (FILL_BYTE <<< 24) ||| (FILL_BYTE <<< 16) ||| (FILL_BYTE <<< 8) |||
    (FILL_BYTE <<< 0)

/-- The four bytes of a 32-bit word as laid out in memory
    (least-significant byte first). -/
def word_bytes (p : Nat) : List Nat :=
  [p % 256, (p / 2 ^ 8) % 256, (p / 2 ^ 16) % 256, (p / 2 ^ 24) % 256]

/-- Byte sequence `vkCmdFillBuffer` writes over a region of `n` bytes
    (`n` a multiple of 4): the 32-bit pattern repeated word by word. -/
def fill_bytes (n : Nat) : List Nat :=
  (List.replicate (n / 4) (word_bytes fill_pattern_word)).flatten

end Vulkan

section Cli

/-- The characters `strtoul` skips as leading whitespace. -/
def isSpaceChar (c : Char) : Bool :=
  c = ' ' ∨ c = '\t' ∨ c = '\n' ∨ c = '\x0b' ∨ c = '\x0c' ∨ c = '\r'

/-- ULONG_MAX on the 64-bit targets the build lines use. -/
def ULONG_MAX : Nat := 2 ^ 64 - 1

/-- `std::strtoul(s, &end, 10)`: skip leading whitespace, an optional
    sign, then the longest run of decimal digits.  Returns the converted
    value and the rest of the string starting at `end`.  With no digits,
    no conversion is performed and `end` is the start of the string.  Out
    of range gives ULONG_MAX; a minus sign negates in unsigned (mod 2^64)
    arithmetic. -/
def strtoul10 (s : List Char) : Nat × List Char :=
  let s1 := s.dropWhile isSpaceChar
  let signed : Bool × List Char :=
    match s1 with
    | '-' :: rest => (true, rest)
    | '+' :: rest => (false, rest)
    | _ => (false, s1)
  let digits := signed.2.takeWhile Char.isDigit
  let rest := signed.2.dropWhile Char.isDigit
  if digits = [] then (0, s)
  else
    let v := digits.foldl (fun a c => a * 10 + (c.toNat - 48)) 0
    if v > ULONG_MAX then (ULONG_MAX, rest)
    else if signed.1 then ((2 ^ 64 - v) % 2 ^ 64, rest) else (v, rest)

/-- `parse_u32` (src/vram_lock.cpp lines 78-86; identical in the Vulkan
    file): reject an empty string, trailing characters after the number,
    and values above 0xFFFFFFFF. -/
def parse_u32 (s : List Char) : Option Nat :=
  if s = [] then none
  else
    let vr := strtoul10 s
    if vr.2 ≠ [] then none
    else if vr.1 > 0xFFFFFFFF then none
    else some vr.1

/-- Observable result of main's argument handling: `help` exits 0,
    `invalidArgs` prints usage and exits 2, `run` proceeds with the
    parsed configuration. -/
inductive CliResult where
  | help
  | invalidArgs
  | run (gpu_index slice_mib slice_bytes : Nat)
deriving DecidableEq, Repr

/-- Argument handling in `main` (src/vram_lock.cpp lines 300-330;
    identically src/vram_lock_vulcan.cpp lines 686-716).  `args` is
    `argv[1..]`.  Defaults: gpu_index 0, slice_mebibytes 512; `-h` or
    `--help` as the first argument prints usage and returns 0; an
    unparsable gpu_index, an unparsable or zero slice size, or a fourth
    argv entry return 2; `slice_bytes = slice_mib * 1024 * 1024`. -/
def parse_cli (args : List (List Char)) : CliResult :=
  match args with
  | [] => .run 0 512 (512 * 1024 * 1024)
  | a1 :: rest =>
    if a1 = "-h".toList ∨ a1 = "--help".toList then .help
    else
      match parse_u32 a1 with
      | none => .invalidArgs
      | some gpu =>
        match rest with
        | [] => .run gpu 512 (512 * 1024 * 1024)
        | a2 :: rest2 =>
          match parse_u32 a2 with
          | none => .invalidArgs
          | some mib =>
            if mib = 0 then .invalidArgs
            else if rest2 ≠ [] then .invalidArgs
            else .run gpu mib (mib * 1024 * 1024)

end Cli

section Equivalence

/-- Backend-independent observation of the CUDA state: glyph map,
    counters, finalized flag, number of held allocations. -/
def Cuda.obs (st : Cuda.VramLockState) : List Char × Nat × Nat × Bool × Nat :=
  (st.map, st.ok_count, st.bad_count, st.finalized_after_oom,
    st.allocations.length)

/-- Backend-independent observation of the Vulkan state. -/
def Vulkan.obs (st : Vulkan.VramLockState) :
    List Char × Nat × Nat × Bool × Nat :=
  (st.map, st.ok_count, st.bad_count, st.finalized_after_oom,
    st.slices.length)

/-- Two backend allocation outcomes are the same outcome (success or
    failure), regardless of the backend-specific handles and codes. -/
def AllocMatch : Cuda.AllocResult → Vulkan.AllocResult → Prop
  | .ok _, .ok _ _ => True
  | .err _, .err _ => True
  | _, _ => False

/-- Two loop iteration inputs agree: same allocation outcome and the same
    two readback buffer contents. -/
def InputsMatch : Cuda.StepInput → Vulkan.StepInput → Prop
  | .step rc hc1 hc2, .step rv hv1 hv2 =>
      AllocMatch rc rv ∧ hc1 = hv1 ∧ hc2 = hv2

/-- The two loop statuses correspond: same phase with equal observations,
    or both fatal. -/
def StatusMatch : Cuda.LoopStatus → Vulkan.LoopStatus → Prop
  | .running sc, .running sv => Cuda.obs sc = Vulkan.obs sv
  | .parked sc, .parked sv => Cuda.obs sc = Vulkan.obs sv
  | .fatal, .fatal => True
  | _, _ => False

end Equivalence

/-- Invariant of CUDA states observable at the top of the while loop:
    allocations and map have equal length, the counters count the `'#'`
    and `'X'` glyphs, every glyph is `'#'` or `'X'` (each slice was
    verified before the next iteration), and the session is not yet
    finalized. -/
def Cuda.GoodRunning (st : Cuda.VramLockState) : Prop :=
  st.allocations.length = st.map.length ∧
  st.ok_count = count_char st.map '#' ∧
  st.bad_count = count_char st.map 'X' ∧
  (∀ c ∈ st.map, c = '#' ∨ c = 'X') ∧
  st.finalized_after_oom = false

/-- A concrete CUDA-side state used to evaluate the theorems on explicit
    inputs (gpu 0, 1 MiB slices of 4 bytes in the model). -/
def Cuda.sample (alloc : List Nat) (map : List Char) (ok bad : Nat)
    (fin : Bool) : Cuda.VramLockState :=
  { gpu_index := 0, slice_mib := 1, slice_bytes := 4, allocations := alloc,
    map := map, ok_count := ok, bad_count := bad,
    finalized_after_oom := fin }

/-- A concrete Vulkan-side state used to evaluate the theorems on explicit
    inputs. -/
def Vulkan.sample (slices : List Vulkan.Slice) (map : List Char)
    (ok bad : Nat) (fin : Bool) : Vulkan.VramLockState :=
  { gpu_index := 0, slice_mib := 1, slice_bytes := 4, slices := slices,
    map := map, ok_count := ok, bad_count := bad,
    finalized_after_oom := fin }

/- ------------------------------------------------------------------ -/
/- Helper lemmas.                                                     -/
/- ------------------------------------------------------------------ -/

theorem set_append_len (l : List Char) (x c : Char) :
    (l ++ [x]).set l.length c = l ++ [c] := by
  induction l with
  | nil => rfl
  | cons a tl ih => simp [List.set, ih]

theorem count_char_append (l m : List Char) (c : Char) :
    count_char (l ++ m) c = count_char l c + count_char m c := by
  induction l with
  | nil => simp [count_char]
  | cons a tl ih => simp [count_char, ih]; omega

theorem count_char_le_length (l : List Char) (c : Char) :
    count_char l c ≤ l.length := by
  induction l with
  | nil => simp [count_char]
  | cons a tl ih =>
      by_cases h : a = c <;> simp [count_char, h] <;> omega

theorem zip_filter_len {α : Type} (as : List α) (ms : List Char)
    (h : as.length = ms.length) (c : Char) :
    (((as.zip ms).filter (fun p => p.2 == c)).map Prod.fst).length =
      count_char ms c := by
  induction as generalizing ms with
  | nil =>
      cases ms with
      | nil => simp [count_char]
      | cons b tl => simp at h
  | cons a tl ih =>
      cases ms with
      | nil => simp at h
      | cons b ms' =>
          simp only [List.length_cons, Nat.add_right_cancel_iff] at h
          have ih' := ih ms' h
          simp only [List.length_map] at ih' ⊢
          by_cases hb : b = c <;>
            simp [List.zip_cons_cons, List.filter_cons, beq_iff_eq,
              count_char, hb, ih', Nat.add_comm]

theorem finalize_length (m : List Char) :
    (finalize_map_after_oom m).length = m.length := by
  simp [finalize_map_after_oom]

theorem finalize_getElem (m : List Char) (i : Nat) (hi : i < m.length)
    (hi2 : i < (finalize_map_after_oom m).length) :
    (finalize_map_after_oom m)[i] =
      if m[i] = '#' ∨ m[i] = '?' then '.' else m[i] := by
  simp [finalize_map_after_oom]

theorem count_char_finalize (m : List Char) :
    count_char (finalize_map_after_oom m) 'X' = count_char m 'X' := by
  induction m with
  | nil => rfl
  | cons a tl ih =>
      by_cases h : a = '#' ∨ a = '?'
      · have hx : a ≠ 'X' := by rcases h with h | h <;> simp [h]
        simpa [finalize_map_after_oom, count_char, h, hx] using ih
      · simpa [finalize_map_after_oom, count_char, h] using ih

theorem filter_map_fst_eq_filterMap {α : Type} (l : List (α × Char))
    (c : Char) :
    (l.filter (fun p => p.2 == c)).map Prod.fst =
      l.filterMap (fun p => if p.2 = c then some p.1 else none) := by
  induction l with
  | nil => rfl
  | cons a tl ih =>
      by_cases h : a.2 = c <;>
        simp [List.filter_cons, List.filterMap_cons, h, ih]

theorem filter_map_fst_eq_filterMap_ne {α : Type} (l : List (α × Char))
    (c : Char) :
    (l.filter (fun p => p.2 != c)).map Prod.fst =
      l.filterMap (fun p => if p.2 = c then none else some p.1) := by
  induction l with
  | nil => rfl
  | cons a tl ih =>
      by_cases h : a.2 = c <;>
        simp [List.filter_cons, List.filterMap_cons, h, ih]

theorem kept_freed_perm (as : List Nat) (ms : List Char)
    (h : as.length = ms.length) :
    List.Perm
      (((as.zip ms).filter (fun p => p.2 == 'X')).map Prod.fst ++
        ((as.zip ms).filter (fun p => p.2 != 'X')).map Prod.fst) as := by
  have h1 : List.Perm
      ((as.zip ms).filter (fun p => p.2 == 'X') ++
        (as.zip ms).filter (fun p => p.2 != 'X')) (as.zip ms) := by
    have h0 := List.filter_append_perm
      (fun p : Nat × Char => p.2 == 'X') (as.zip ms)
    simpa [bne] using h0
  have h2 := h1.map Prod.fst
  rw [List.map_append] at h2
  rwa [List.map_fst_zip as ms (le_of_eq h)] at h2

theorem getElem_append_one {α : Type} (l : List α) (x : α) (i : Nat)
    (hi : i < l.length) (h2 : i < (l ++ [x]).length) :
    (l ++ [x])[i] = l[i] := by
  rw [List.getElem_append_left]

theorem parse_u32_ne_help (a : List Char) (g : Nat)
    (h : parse_u32 a = some g) :
    ¬ (a = "-h".toList ∨ a = "--help".toList) := by
  rintro (rfl | rfl)
  · exact Option.noConfusion
      ((show parse_u32 ("-h".toList) = none by decide).symm.trans h)
  · exact Option.noConfusion
      ((show parse_u32 ("--help".toList) = none by decide).symm.trans h)

theorem count_two_glyphs (m : List Char)
    (h : ∀ c ∈ m, c = '#' ∨ c = 'X') :
    count_char m '#' + count_char m 'X' = m.length := by
  induction m with
  | nil => rfl
  | cons a tl ih =>
      have ha := h a (by simp)
      have htl : ∀ c ∈ tl, c = '#' ∨ c = 'X' := fun c hc => h c (by simp [hc])
      have ih' := ih htl
      rcases ha with ha | ha <;> simp [count_char, ha] <;> omega

namespace Cuda

theorem test_pointer_eq (st : VramLockState) (idx : Nat) (h1 h2 : List Nat)
    (ha : idx < st.allocations.length) (hm : idx < st.map.length) :
    st.test_pointer idx h1 h2 = some
      (if h1 = h2 then
        { st with map := st.map.set idx '#', ok_count := st.ok_count + 1 }
      else
        { st with map := st.map.set idx 'X',
                  bad_count := st.bad_count + 1 }) := by
  have hg : ¬ (idx ≥ st.allocations.length ∨ idx ≥ st.map.length) := by omega
  by_cases hc : h1 = h2 <;> simp [VramLockState.test_pointer, hg, hc]

theorem session_step_ok (st : VramLockState) (dptr : Nat)
    (h1 h2 : List Nat) (hlen : st.allocations.length = st.map.length) :
    session_step (.running st) (.step (.ok dptr) h1 h2) = .running
      { st with allocations := st.allocations ++ [dptr],
                map := st.map ++ [if h1 = h2 then '#' else 'X'],
                ok_count := if h1 = h2 then st.ok_count + 1 else st.ok_count,
                bad_count :=
                  if h1 = h2 then st.bad_count else st.bad_count + 1 } := by
  have hidx : (st.allocations ++ [dptr]).length - 1 = st.map.length := by
    simp [hlen]
  by_cases hc : h1 = h2 <;>
    simp [session_step, VramLockState.make_allocation, test_pointer_eq,
      VramLockState.test_pointer, hidx, hc, hlen, set_append_len]

theorem session_step_err (st : VramLockState) (code : Nat)
    (h1 h2 : List Nat) (hlen : st.allocations.length = st.map.length) :
    session_step (.running st) (.step (.err code) h1 h2) = .parked
      { st with
          allocations := ((st.allocations.zip st.map).filter
            (fun p => p.2 == 'X')).map Prod.fst,
          map := finalize_map_after_oom st.map,
          finalized_after_oom := true } := by
  simp [session_step, VramLockState.make_allocation,
    VramLockState.free_all_except_faulty, hlen]

theorem session_step_parked (st : VramLockState) (inp : StepInput) :
    session_step (.parked st) inp = .parked st := rfl

theorem run_session_parked (st : VramLockState) (script : List StepInput) :
    run_session (.parked st) script = .parked st := by
  induction script with
  | nil => rfl
  | cons i tl ih =>
      calc run_session (.parked st) (i :: tl)
          = run_session (session_step (.parked st) i) tl := rfl
        _ = .parked st := ih

theorem good_initial (g m b : Nat) : GoodRunning (initial_state g m b) := by
  refine ⟨rfl, rfl, rfl, ?_, rfl⟩
  intro c hc
  simp [initial_state] at hc

theorem good_step (st st' : VramLockState) (inp : StepInput)
    (hg : GoodRunning st)
    (h : session_step (.running st) inp = .running st') :
    GoodRunning st' := by
  obtain ⟨hlen, hok, hbad, hglyph, hfin⟩ := hg
  obtain ⟨r, h1, h2⟩ := inp
  cases r with
  | err code => rw [session_step_err st code h1 h2 hlen] at h; cases h
  | ok dptr =>
      rw [session_step_ok st dptr h1 h2 hlen] at h
      injection h with h
      subst h
      refine ⟨by simp [hlen], ?_, ?_, ?_, hfin⟩
      · by_cases hc : h1 = h2 <;>
          simp [hc, count_char_append, count_char, hok]
      · by_cases hc : h1 = h2 <;>
          simp [hc, count_char_append, count_char, hbad]
      · intro c hc
        rcases List.mem_append.1 hc with hc | hc
        · exact hglyph c hc
        · by_cases he : h1 = h2 <;> simp [he] at hc <;> simp [hc]

theorem good_run (script : List StepInput) :
    ∀ s0 st, GoodRunning s0 →
      run_session (.running s0) script = .running st → GoodRunning st := by
  induction script with
  | nil =>
      intro s0 st h0 h
      cases h
      exact h0
  | cons i tl ih =>
      intro s0 st h0 h
      have hstep : run_session (.running s0) (i :: tl) =
          run_session (session_step (.running s0) i) tl := rfl
      rw [hstep] at h
      rcases hs : session_step (.running s0) i with st1 | st1 | _
      · rw [hs] at h
        exact ih st1 st (good_step s0 st1 i h0 hs) h
      · rw [hs, run_session_parked] at h
        cases h
      · rw [hs] at h
        have hfatal : ∀ sc : List StepInput,
            run_session .fatal sc = .fatal := by
          intro sc
          induction sc with
          | nil => rfl
          | cons j tl2 ih2 =>
              calc run_session LoopStatus.fatal (j :: tl2)
                  = run_session (session_step .fatal j) tl2 := rfl
                _ = .fatal := ih2
        rw [hfatal] at h
        cases h

theorem reachable_good (st : VramLockState) (h : Reachable st) :
    GoodRunning st := by
  obtain ⟨g, m, b, script, hrun⟩ := h
  exact good_run script _ st (good_initial g m b) hrun

theorem session_step_ok_general (st : VramLockState) (dptr : Nat)
    (h1 h2 : List Nat) (h : st.allocations.length ≤ st.map.length) :
    session_step (.running st) (.step (.ok dptr) h1 h2) = .running
      { st with allocations := st.allocations ++ [dptr],
                map := (st.map ++ ['?']).set st.allocations.length
                  (if h1 = h2 then '#' else 'X'),
                ok_count := if h1 = h2 then st.ok_count + 1 else st.ok_count,
                bad_count :=
                  if h1 = h2 then st.bad_count else st.bad_count + 1 } := by
  have hidx : (st.allocations ++ [dptr]).length - 1 =
      st.allocations.length := by simp
  have hg : ¬ (st.allocations.length ≥ st.allocations.length + 1 ∨
      st.allocations.length ≥ st.map.length + 1) := by omega
  have hg2 : ¬ (st.map.length + 1 ≤ st.allocations.length) := by omega
  by_cases hc : h1 = h2 <;>
    simp [session_step, VramLockState.make_allocation,
      VramLockState.test_pointer, hidx, hc, hg, hg2]

theorem session_step_ok_fatal (st : VramLockState) (dptr : Nat)
    (h1 h2 : List Nat) (h : st.map.length < st.allocations.length) :
    session_step (.running st) (.step (.ok dptr) h1 h2) = .fatal := by
  have hidx : (st.allocations ++ [dptr]).length - 1 =
      st.allocations.length := by simp
  have hg : st.allocations.length ≥ st.allocations.length + 1 ∨
      st.allocations.length ≥ st.map.length + 1 := by omega
  have hg2 : st.map.length + 1 ≤ st.allocations.length := h
  simp [session_step, VramLockState.make_allocation,
    VramLockState.test_pointer, hidx, hg, hg2]

theorem session_step_err_fatal (st : VramLockState) (code : Nat)
    (h1 h2 : List Nat) (h : st.allocations.length ≠ st.map.length) :
    session_step (.running st) (.step (.err code) h1 h2) = .fatal := by
  simp [session_step, VramLockState.make_allocation,
    VramLockState.free_all_except_faulty, h]

end Cuda

namespace Vulkan

theorem vk_session_step_ok_general (st : VramLockState) (buffer memory : Nat)
    (h1 h2 : List Nat) (h : st.slices.length ≤ st.map.length) :
    session_step (.running st) (.step (.ok buffer memory) h1 h2) = .running
      { st with
          slices := st.slices ++
            [{ buffer := buffer, memory := memory,
               size := st.slice_bytes }],
          map := (st.map ++ ['?']).set st.slices.length
            (if h1 = h2 then '#' else 'X'),
          ok_count := if h1 = h2 then st.ok_count + 1 else st.ok_count,
          bad_count :=
            if h1 = h2 then st.bad_count else st.bad_count + 1 } := by
  have hg : ¬ (st.slices.length ≥ st.slices.length + 1 ∨
      st.slices.length ≥ st.map.length + 1) := by omega
  have hg2 : ¬ (st.map.length + 1 ≤ st.slices.length) := by omega
  by_cases hc : h1 = h2 <;>
    simp [session_step, VramLockState.make_allocation,
      VramLockState.test_slice, hc, hg, hg2]

theorem vk_session_step_ok_fatal (st : VramLockState) (buffer memory : Nat)
    (h1 h2 : List Nat) (h : st.map.length < st.slices.length) :
    session_step (.running st) (.step (.ok buffer memory) h1 h2) =
      .fatal := by
  have hg : st.slices.length ≥ st.slices.length + 1 ∨
      st.slices.length ≥ st.map.length + 1 := by omega
  have hg2 : st.map.length + 1 ≤ st.slices.length := h
  simp [session_step, VramLockState.make_allocation,
    VramLockState.test_slice, hg, hg2]

theorem vk_session_step_err (st : VramLockState) (code : Nat)
    (h1 h2 : List Nat) (hlen : st.slices.length = st.map.length) :
    session_step (.running st) (.step (.err code) h1 h2) = .parked
      { st with
          slices := ((st.slices.zip st.map).filter
            (fun p => p.2 == 'X')).map Prod.fst,
          map := finalize_map_after_oom st.map,
          finalized_after_oom := true } := by
  simp [session_step, VramLockState.make_allocation,
    VramLockState.free_all_except_faulty, hlen]

theorem vk_session_step_err_fatal (st : VramLockState) (code : Nat)
    (h1 h2 : List Nat) (h : st.slices.length ≠ st.map.length) :
    session_step (.running st) (.step (.err code) h1 h2) = .fatal := by
  simp [session_step, VramLockState.make_allocation,
    VramLockState.free_all_except_faulty, h]

theorem vk_run_session_parked (st : VramLockState) (script : List StepInput) :
    run_session (.parked st) script = .parked st := by
  induction script with
  | nil => rfl
  | cons i tl ih =>
      calc run_session (.parked st) (i :: tl)
          = run_session (session_step (.parked st) i) tl := rfl
        _ = .parked st := ih

end Vulkan

theorem step_match (s : Cuda.LoopStatus) (t : Vulkan.LoopStatus)
    (ic : Cuda.StepInput) (iv : Vulkan.StepInput)
    (hst : StatusMatch s t) (hin : InputsMatch ic iv) :
    StatusMatch (Cuda.session_step s ic) (Vulkan.session_step t iv) := by
  obtain ⟨rc, hc1, hc2⟩ := ic
  obtain ⟨rv, hv1, hv2⟩ := iv
  obtain ⟨hr, hb1, hb2⟩ := hin
  subst hb1
  subst hb2
  cases s with
  | fatal =>
      cases t with
      | fatal => exact trivial
      | running sv => exact absurd hst (by simp [StatusMatch])
      | parked sv => exact absurd hst (by simp [StatusMatch])
  | parked sc =>
      cases t with
      | fatal => exact absurd hst (by simp [StatusMatch])
      | running sv => exact absurd hst (by simp [StatusMatch])
      | parked sv => exact hst
  | running sc =>
      cases t with
      | fatal => exact absurd hst (by simp [StatusMatch])
      | parked sv => exact absurd hst (by simp [StatusMatch])
      | running sv =>
          have hobs : Cuda.obs sc = Vulkan.obs sv := hst
          have hmap : sc.map = sv.map := congrArg Prod.fst hobs
          have hok : sc.ok_count = sv.ok_count := by
            have := congrArg (fun o => o.2.1) hobs
            simpa using this
          have hbad : sc.bad_count = sv.bad_count := by
            have := congrArg (fun o => o.2.2.1) hobs
            simpa using this
          have hfin : sc.finalized_after_oom = sv.finalized_after_oom := by
            have := congrArg (fun o => o.2.2.2.1) hobs
            simpa using this
          have hlen : sc.allocations.length = sv.slices.length := by
            have := congrArg (fun o => o.2.2.2.2) hobs
            simpa using this
          cases rc with
          | ok dptr =>
              cases rv with
              | err code => exact absurd hr (by simp [AllocMatch])
              | ok buffer memory =>
                  by_cases hle : sc.allocations.length ≤ sc.map.length
                  · rw [Cuda.session_step_ok_general sc dptr hc1 hc2 hle,
                      Vulkan.vk_session_step_ok_general sv buffer memory hc1 hc2
                        (by rw [← hlen, ← hmap]; exact hle)]
                    show Cuda.obs _ = Vulkan.obs _
                    simp [Cuda.obs, Vulkan.obs, hmap, hok, hbad, hfin, hlen]
                  · rw [Cuda.session_step_ok_fatal sc dptr hc1 hc2
                        (by omega),
                      Vulkan.vk_session_step_ok_fatal sv buffer memory hc1 hc2
                        (by rw [← hlen, ← hmap]; omega)]
                    exact trivial
          | err code =>
              cases rv with
              | ok buffer memory => exact absurd hr (by simp [AllocMatch])
              | err code2 =>
                  by_cases heq : sc.allocations.length = sc.map.length
                  · rw [Cuda.session_step_err sc code hc1 hc2 heq,
                      Vulkan.vk_session_step_err sv code2 hc1 hc2
                        (by rw [← hlen, ← hmap]; exact heq)]
                    show Cuda.obs _ = Vulkan.obs _
                    have hlen2 : sv.slices.length = sv.map.length := by
                      rw [← hlen, ← hmap]; exact heq
                    have hkc := zip_filter_len sc.allocations sc.map heq 'X'
                    have hkv := zip_filter_len sv.slices sv.map hlen2 'X'
                    rw [hmap] at hkc
                    simp only [List.length_map] at hkc hkv
                    simp [Cuda.obs, Vulkan.obs, hmap, hok, hbad, hkc, hkv]
                  · rw [Cuda.session_step_err_fatal sc code hc1 hc2 heq,
                      Vulkan.vk_session_step_err_fatal sv code2 hc1 hc2
                        (by rw [← hlen, ← hmap]; exact heq)]
                    exact trivial

theorem run_match (cs : List Cuda.StepInput) :
    ∀ (vs : List Vulkan.StepInput) (s : Cuda.LoopStatus)
      (t : Vulkan.LoopStatus), StatusMatch s t →
      List.Forall₂ InputsMatch cs vs →
      StatusMatch (Cuda.run_session s cs) (Vulkan.run_session t vs) := by
  induction cs with
  | nil =>
      intro vs s t hst hf
      cases hf
      exact hst
  | cons ic cs' ih =>
      intro vs s t hst hf
      cases hf with
      | cons hin hf' =>
          rename_i iv vs'
          exact ih vs' (Cuda.session_step s ic) (Vulkan.session_step t iv)
            (step_match s t ic iv hst hin) hf'

theorem word_bytes_fill :
    Vulkan.word_bytes Vulkan.fill_pattern_word =
      [FILL_BYTE, FILL_BYTE, FILL_BYTE, FILL_BYTE] := by decide

theorem flatten_replicate_word (k : Nat) (a : Nat) :
    (List.replicate k [a, a, a, a]).flatten = List.replicate (4 * k) a := by
  induction k with
  | zero => rfl
  | succ n ih =>
      rw [List.replicate_succ, List.flatten_cons, ih,
        show 4 * (n + 1) = 4 + 4 * n by ring, List.replicate_add]
      rfl

theorem vulkan_fill_eq (n : Nat) (h : 4 ∣ n) :
    Vulkan.fill_bytes n = List.replicate n FILL_BYTE := by
  rw [Vulkan.fill_bytes, word_bytes_fill, flatten_replicate_word,
    Nat.mul_div_cancel' h]

theorem memset_d8_fill (n : Nat) :
    memset_d8 n FILL_BYTE = List.replicate n FILL_BYTE := by
  rfl

theorem test_slice_eq (st : Vulkan.VramLockState) (idx : Nat)
    (h1 h2 : List Nat) (ha : idx < st.slices.length)
    (hm : idx < st.map.length) :
    st.test_slice idx h1 h2 = some
      (if h1 = h2 then
        { st with map := st.map.set idx '#', ok_count := st.ok_count + 1 }
      else
        { st with map := st.map.set idx 'X',
                  bad_count := st.bad_count + 1 }) := by
  have hg : ¬ (idx ≥ st.slices.length ∨ idx ≥ st.map.length) := by omega
  by_cases hc : h1 = h2 <;> simp [Vulkan.VramLockState.test_slice, hg, hc]

/- ------------------------------------------------------------------ -/
/- Claims.                                                            -/
/- ------------------------------------------------------------------ -/

/-- C1: For every slice under test, the verifier fills the region with the
fixed byte pattern (0xA5 in every byte), reads it back into two separate
host buffers, and classifies solely by byte-for-byte comparison of the two
host copies: if the copies are equal the slice's glyph becomes `'#'`
(Verified) and `ok_count` (the verified counter) is incremented; if they
differ the glyph becomes `'X'` (Faulty) and `bad_count` is incremented.
The outcome depends only on whether the two copies are equal — the
readbacks are never compared against the expected fill pattern (so equal
copies that do not contain the pattern are still classified Verified).
Both backends (CUDA `test_pointer`, Vulkan `test_slice`) behave this
way. -/
theorem C1_verifier_classifies_by_host_copy_equality :
    (∀ (st : Cuda.VramLockState) (idx : Nat) (h1 h2 : List Nat),
      idx < st.allocations.length → idx < st.map.length →
      (st.test_pointer idx h1 h2 = some
        (if h1 = h2 then
          { st with map := st.map.set idx '#',
                    ok_count := st.ok_count + 1 }
        else
          { st with map := st.map.set idx 'X',
                    bad_count := st.bad_count + 1 })) ∧
      (∀ h1' h2' : List Nat, (h1 = h2 ↔ h1' = h2') →
        st.test_pointer idx h1 h2 = st.test_pointer idx h1' h2')) ∧
    (∀ (st : Vulkan.VramLockState) (idx : Nat) (h1 h2 : List Nat),
      idx < st.slices.length → idx < st.map.length →
      st.test_slice idx h1 h2 = some
        (if h1 = h2 then
          { st with map := st.map.set idx '#',
                    ok_count := st.ok_count + 1 }
        else
          { st with map := st.map.set idx 'X',
                    bad_count := st.bad_count + 1 })) ∧
    (∀ n : Nat, memset_d8 n FILL_BYTE = List.replicate n 0xA5) ∧
    (∀ m : Nat, 4 ∣ m → Vulkan.fill_bytes m = List.replicate m 0xA5) := by
  refine ⟨?_, ?_, ?_, ?_⟩
  · intro st idx h1 h2 ha hm
    refine ⟨Cuda.test_pointer_eq st idx h1 h2 ha hm, ?_⟩
    intro h1' h2' hiff
    rw [Cuda.test_pointer_eq st idx h1 h2 ha hm,
      Cuda.test_pointer_eq st idx h1' h2' ha hm]
    by_cases hc : h1 = h2
    · simp [hc, hiff.mp hc]
    · have hc' : ¬ h1' = h2' := fun he => hc (hiff.mpr he)
      simp [hc, hc']
  · intro st idx h1 h2 ha hm
    exact test_slice_eq st idx h1 h2 ha hm
  · intro n
    rfl
  · intro m hm
    exact vulkan_fill_eq m hm

/-- Witness for C1 at a concrete input: one in-range slice, both readbacks
equal to `[0, 0, 0, 0]` — not the fill pattern, yet classified Verified
(`'#'`, `ok_count` goes from 0 to 1), because only the two host copies are
compared. -/
theorem C1_witness :
    (Cuda.sample [7] ['?'] 0 0 false).test_pointer 0 [0, 0, 0, 0]
      [0, 0, 0, 0] = some (Cuda.sample [7] ['#'] 1 0 false) := by
  have h := (C1_verifier_classifies_by_host_copy_equality.1
    (Cuda.sample [7] ['?'] 0 0 false) 0 [0, 0, 0, 0] [0, 0, 0, 0]
    (by decide) (by decide)).1
  exact h.trans (by decide)

/-- C2: Reclamation at exhaustion partitions the registry: the kept
allocation list is exactly the handles of the `'X'` (Faulty) slices, the
freed list is exactly the handles of all other slices, together they are a
permutation of the original allocation list, `free_all_except_faulty`
leaves the map untouched, and `finalize_map_after_oom` preserves the map's
length while sending every non-`'X'` glyph to `'.'` (Released) and leaving
every `'X'` glyph unchanged. -/
theorem C2_reclamation_partitions_registry :
    ∀ st : Cuda.VramLockState,
      st.allocations.length = st.map.length →
      (∀ c ∈ st.map, c = '#' ∨ c = '?' ∨ c = 'X') →
      ∃ st1 freed,
        st.free_all_except_faulty = some (st1, freed) ∧
        st1.map = st.map ∧
        st1.allocations = (st.allocations.zip st.map).filterMap
          (fun p => if p.2 = 'X' then some p.1 else none) ∧
        freed = (st.allocations.zip st.map).filterMap
          (fun p => if p.2 = 'X' then none else some p.1) ∧
        List.Perm (st1.allocations ++ freed) st.allocations ∧
        st1.allocations.length = count_char st.map 'X' ∧
        (finalize_map_after_oom st.map).length = st.map.length ∧
        ∀ (i : Nat) (hi : i < st.map.length)
          (hi2 : i < (finalize_map_after_oom st.map).length),
          (finalize_map_after_oom st.map)[i] =
            if st.map[i] = 'X' then 'X' else '.' := by
  intro st hlen hglyph
  refine ⟨{ st with allocations := ((st.allocations.zip st.map).filter
      (fun p => p.2 == 'X')).map Prod.fst },
    ((st.allocations.zip st.map).filter
      (fun p => p.2 != 'X')).map Prod.fst,
    ?_, rfl, ?_, ?_, ?_, ?_, finalize_length st.map, ?_⟩
  · simp [Cuda.VramLockState.free_all_except_faulty, hlen]
  · exact filter_map_fst_eq_filterMap _ _
  · exact filter_map_fst_eq_filterMap_ne _ _
  · exact kept_freed_perm st.allocations st.map hlen
  · exact zip_filter_len st.allocations st.map hlen 'X'
  · intro i hi hi2
    rw [finalize_getElem st.map i hi hi2]
    rcases hglyph (st.map[i]) (List.getElem_mem hi) with h | h | h <;>
      simp [h]

/-- Witness for C2 at a concrete registry (handles 10, 11, 12 with glyphs
`'#'`, `'X'`, `'?'`): the finalized map keeps its length and keeps the
`'X'` at index 1. -/
theorem C2_witness :
    (finalize_map_after_oom ['#', 'X', '?']).length =
      (['#', 'X', '?'] : List Char).length ∧
    (finalize_map_after_oom ['#', 'X', '?'])[1] =
      (if (['#', 'X', '?'] : List Char)[1] = 'X' then 'X' else '.') := by
  obtain ⟨st1, freed, h1, h2, h3, h4, h5, h6, h7, h8⟩ :=
    C2_reclamation_partitions_registry
      (Cuda.sample [10, 11, 12] ['#', 'X', '?'] 1 0 false)
      (by decide) (by decide)
  exact ⟨h7, h8 1 (by decide) (by decide)⟩

/-- C3 counterexample: the claim says verified_count + faulty_count equals
the registry length at every point of the session before finalization, but
at the concrete point between a successful allocation and its verification
(a state render_ui displays, src/vram_lock.cpp lines 408-417) the registry
holds 1 slice while both counters are 0 and the session is not
finalized. -/
theorem C3_counterexample_midpoint :
    ((Cuda.initial_state 0 1 4).make_allocation (.ok 0)).1.ok_count +
        ((Cuda.initial_state 0 1 4).make_allocation (.ok 0)).1.bad_count =
        0 ∧
    ((Cuda.initial_state 0 1 4).make_allocation
        (.ok 0)).1.allocations.length = 1 ∧
    ((Cuda.initial_state 0 1 4).make_allocation
        (.ok 0)).1.finalized_after_oom = false := by
  decide

/-- C3 (amended): at every iteration boundary of every session before
finalization (every reachable running state), verified_count + faulty_count
equals the number of successful allocations (the registry length) and each
counter equals the number of slices currently in its state; between a
successful allocation and its verification the sum is the registry length
minus one; and both counters are monotonically non-decreasing across
iterations. -/
theorem C3_amended_counters_invariant :
    ∀ st : Cuda.VramLockState, Cuda.Reachable st →
      (st.ok_count + st.bad_count = st.allocations.length ∧
        st.ok_count = count_char st.map '#' ∧
        st.bad_count = count_char st.map 'X') ∧
      (∀ dptr : Nat,
        (st.make_allocation (.ok dptr)).1.ok_count +
            (st.make_allocation (.ok dptr)).1.bad_count + 1 =
          (st.make_allocation (.ok dptr)).1.allocations.length) ∧
      (∀ (inp : Cuda.StepInput) (st' : Cuda.VramLockState),
        Cuda.session_step (.running st) inp = .running st' →
        st.ok_count ≤ st'.ok_count ∧ st.bad_count ≤ st'.bad_count) := by
  intro st hr
  obtain ⟨hlen, hok, hbad, hglyph, hfin⟩ := Cuda.reachable_good st hr
  have hsum : st.ok_count + st.bad_count = st.allocations.length := by
    rw [hok, hbad, hlen]
    exact count_two_glyphs st.map hglyph
  refine ⟨⟨hsum, hok, hbad⟩, ?_, ?_⟩
  · intro dptr
    simp [Cuda.VramLockState.make_allocation, hsum]
  · intro inp st' hstep
    obtain ⟨r, h1, h2⟩ := inp
    cases r with
    | err code =>
        rw [Cuda.session_step_err st code h1 h2 hlen] at hstep
        cases hstep
    | ok dptr =>
        rw [Cuda.session_step_ok st dptr h1 h2 hlen] at hstep
        injection hstep with hstep
        subst hstep
        by_cases hc : h1 = h2 <;> simp [hc]

/-- Witness for C3 (amended) at a concrete reachable state (one verified
slice after one successful iteration). -/
theorem C3_witness :
    (Cuda.sample [5] ['#'] 1 0 false).ok_count +
        (Cuda.sample [5] ['#'] 1 0 false).bad_count =
      (Cuda.sample [5] ['#'] 1 0 false).allocations.length :=
  ((C3_amended_counters_invariant (Cuda.sample [5] ['#'] 1 0 false)
    ⟨0, 1, 4, [Cuda.StepInput.step (.ok 5) [1] [1]], by decide⟩).1).1

/-- C4: Slice state transitions are monotonic.  In every reachable running
state every glyph is `'#'` or `'X'` (a fresh slice starts `'?'` and is
marked within the same iteration, so the only transitions are
InProgress → Verified and InProgress → Faulty).  A running → running step
leaves every existing glyph unchanged, so no slice ever leaves Faulty and
no marked slice returns to InProgress; the finalization step
(running → parked) sends exactly the non-`'X'` glyphs — the Verified
slices — to `'.'` (Released) while leaving `'X'` unchanged, and the parked
state never changes again. -/
theorem C4_state_transitions_monotonic :
    ∀ st : Cuda.VramLockState, Cuda.Reachable st →
      (∀ c ∈ st.map, c = '#' ∨ c = 'X') ∧
      (∀ (inp : Cuda.StepInput) (st' : Cuda.VramLockState),
        Cuda.session_step (.running st) inp = .running st' →
        ∀ (i : Nat) (hi : i < st.map.length) (hi' : i < st'.map.length),
          st'.map[i] = st.map[i]) ∧
      (∀ (inp : Cuda.StepInput) (st' : Cuda.VramLockState),
        Cuda.session_step (.running st) inp = .parked st' →
        st'.map.length = st.map.length ∧
        (∀ (i : Nat) (hi : i < st.map.length) (hi' : i < st'.map.length),
          st'.map[i] = if st.map[i] = 'X' then 'X' else '.') ∧
        st'.finalized_after_oom = true ∧
        (∀ inp2 : Cuda.StepInput,
          Cuda.session_step (.parked st') inp2 = .parked st')) := by
  intro st hr
  obtain ⟨hlen, hok, hbad, hglyph, hfin⟩ := Cuda.reachable_good st hr
  refine ⟨hglyph, ?_, ?_⟩
  · intro inp st' hstep i hi hi'
    obtain ⟨r, h1, h2⟩ := inp
    cases r with
    | err code =>
        rw [Cuda.session_step_err st code h1 h2 hlen] at hstep
        cases hstep
    | ok dptr =>
        rw [Cuda.session_step_ok st dptr h1 h2 hlen] at hstep
        injection hstep with hstep
        subst hstep
        exact getElem_append_one st.map _ i hi hi'
  · intro inp st' hstep
    obtain ⟨r, h1, h2⟩ := inp
    cases r with
    | ok dptr =>
        rw [Cuda.session_step_ok st dptr h1 h2 hlen] at hstep
        cases hstep
    | err code =>
        rw [Cuda.session_step_err st code h1 h2 hlen] at hstep
        injection hstep with hstep
        subst hstep
        refine ⟨finalize_length st.map, ?_, rfl, fun inp2 => rfl⟩
        intro i hi hi'
        show (finalize_map_after_oom st.map)[i] = _
        rw [finalize_getElem st.map i hi hi']
        rcases hglyph (st.map[i]) (List.getElem_mem hi) with h | h <;>
          simp [h]

/-- Witness for C4 at a concrete reachable state with one Faulty slice:
finalization keeps the map length and marks the session finalized. -/
theorem C4_witness :
    (Cuda.sample [5] ['X'] 0 1 true).map.length =
      (Cuda.sample [5] ['X'] 0 1 false).map.length ∧
    (Cuda.sample [5] ['X'] 0 1 true).finalized_after_oom = true := by
  have h := (C4_state_transitions_monotonic
    (Cuda.sample [5] ['X'] 0 1 false)
    ⟨0, 1, 4, [Cuda.StepInput.step (.ok 5) [0] [1]], by decide⟩).2.2
    (Cuda.StepInput.step (.err 0) [] []) (Cuda.sample [5] ['X'] 0 1 true)
    (by decide)
  exact ⟨h.1, h.2.2.1⟩

/-- C5: When an allocation attempt fails in the main loop of a reachable
session state, the step reclaims non-faulty slices, finalizes the map,
sets the finalized flag and enters the parked sleep_forever state; it does
not exit the process (never fatal on this path), and the parked status
absorbs every further script — the wait never returns. -/
theorem C5_exhaustion_parks_forever :
    (∀ st : Cuda.VramLockState, Cuda.Reachable st →
      ∀ (code : Nat) (h1 h2 : List Nat),
        Cuda.session_step (.running st) (.step (.err code) h1 h2) =
          .parked { st with
            allocations := ((st.allocations.zip st.map).filter
              (fun p => p.2 == 'X')).map Prod.fst,
            map := finalize_map_after_oom st.map,
            finalized_after_oom := true } ∧
        Cuda.session_step (.running st) (.step (.err code) h1 h2) ≠
          .fatal) ∧
    (∀ (st2 : Cuda.VramLockState) (script : List Cuda.StepInput),
      Cuda.run_session (.parked st2) script = .parked st2) := by
  constructor
  · intro st hr code h1 h2
    obtain ⟨hlen, _, _, _, _⟩ := Cuda.reachable_good st hr
    have h := Cuda.session_step_err st code h1 h2 hlen
    refine ⟨h, ?_⟩
    rw [h]
    intro hcon
    cases hcon
  · intro st2 script
    exact Cuda.run_session_parked st2 script

/-- Witness for C5 at a concrete reachable state with one Faulty slice:
the failed allocation parks the session holding only the faulty handle,
and the parked state survives a further input unchanged. -/
theorem C5_witness :
    Cuda.session_step (.running (Cuda.sample [5] ['X'] 0 1 false))
        (.step (.err 0) [] []) =
      .parked (Cuda.sample [5] ['X'] 0 1 true) ∧
    Cuda.run_session (.parked (Cuda.sample [5] ['X'] 0 1 true))
        [.step (.ok 9) [1] [1]] =
      .parked (Cuda.sample [5] ['X'] 0 1 true) := by
  have h := (C5_exhaustion_parks_forever.1 (Cuda.sample [5] ['X'] 0 1 false)
    ⟨0, 1, 4, [Cuda.StepInput.step (.ok 5) [0] [1]], by decide⟩ 0 [] []).1
  exact ⟨h.trans (by decide), C5_exhaustion_parks_forever.2 _ _⟩

/-- C6 counterexample: the claim says marking fails fatally when the slice
at the index is not InProgress, but `test_pointer` checks only the index
range: on a slice already marked `'#'` (not InProgress) it does not
terminate — it silently re-marks the slice and increments `ok_count` a
second time. -/
theorem C6_counterexample_no_state_check :
    (Cuda.sample [7] ['#'] 1 0 false).test_pointer 0 [1] [1] =
      some (Cuda.sample [7] ['#'] 2 0 false) := by
  decide

/-- C6 (amended): marking a slice's verification outcome fails fatally
exactly when the index is out of range of the registry; the slice's
current state is not checked.  In range, it sets the state to Verified or
Faulty and increments the matching counter regardless of the previous
state (in the session loop it is only ever invoked on the freshly
allocated InProgress slice).  Same for the Vulkan backend. -/
theorem C6_amended_mark_range_check_only :
    (∀ (st : Cuda.VramLockState) (idx : Nat) (h1 h2 : List Nat),
      (st.test_pointer idx h1 h2 = none ↔
        st.allocations.length ≤ idx ∨ st.map.length ≤ idx) ∧
      (idx < st.allocations.length → idx < st.map.length →
        st.test_pointer idx h1 h2 = some
          (if h1 = h2 then
            { st with map := st.map.set idx '#',
                      ok_count := st.ok_count + 1 }
          else
            { st with map := st.map.set idx 'X',
                      bad_count := st.bad_count + 1 }))) ∧
    (∀ (st : Vulkan.VramLockState) (idx : Nat) (h1 h2 : List Nat),
      st.test_slice idx h1 h2 = none ↔
        st.slices.length ≤ idx ∨ st.map.length ≤ idx) := by
  constructor
  · intro st idx h1 h2
    constructor
    · constructor
      · intro hnone
        by_contra hcon
        push_neg at hcon
        obtain ⟨ha, hm⟩ := hcon
        rw [Cuda.test_pointer_eq st idx h1 h2 ha hm] at hnone
        cases hnone
      · intro hge
        show (if idx ≥ st.allocations.length ∨ idx ≥ st.map.length then
          none else _) = none
        rw [if_pos hge]
    · intro ha hm
      exact Cuda.test_pointer_eq st idx h1 h2 ha hm
  · intro st idx h1 h2
    constructor
    · intro hnone
      by_contra hcon
      push_neg at hcon
      obtain ⟨ha, hm⟩ := hcon
      rw [test_slice_eq st idx h1 h2 ha hm] at hnone
      cases hnone
    · intro hge
      show (if idx ≥ st.slices.length ∨ idx ≥ st.map.length then
        none else _) = none
      rw [if_pos hge]

/-- Witness for C6 (amended): an out-of-range index on the empty registry
is fatal; an in-range index with differing readbacks marks the slice
Faulty and increments the faulty counter. -/
theorem C6_witness :
    ((Cuda.sample [] [] 0 0 false).test_pointer 0 [] [] = none) ∧
    ((Cuda.sample [7] ['?'] 0 0 false).test_pointer 0 [1] [2] =
      some (Cuda.sample [7] ['X'] 0 1 false)) := by
  constructor
  · exact (C6_amended_mark_range_check_only.1 (Cuda.sample [] [] 0 0 false)
      0 [] []).1.mpr (Or.inl (by decide))
  · have h := (C6_amended_mark_range_check_only.1
      (Cuda.sample [7] ['?'] 0 0 false) 0 [1] [2]).2 (by decide) (by decide)
    exact h.trans (by decide)

/-- C7: `make_allocation` is atomic on failure: when the backend
allocation fails it returns the state unchanged together with the
backend's nonzero result code, and on success it appends exactly one new
slice with glyph `'?'` (InProgress) at the next index, leaving counters
and the finalized flag unchanged; in both backends. -/
theorem C7_allocate_slice_atomic :
    (∀ (st : Cuda.VramLockState) (code : Nat),
      st.make_allocation (.err code) = (st, code + 1)) ∧
    (∀ (st : Cuda.VramLockState) (dptr : Nat),
      (st.make_allocation (.ok dptr)).1.allocations =
        st.allocations ++ [dptr] ∧
      (st.make_allocation (.ok dptr)).1.map = st.map ++ ['?'] ∧
      (st.make_allocation (.ok dptr)).1.ok_count = st.ok_count ∧
      (st.make_allocation (.ok dptr)).1.bad_count = st.bad_count ∧
      (st.make_allocation (.ok dptr)).1.finalized_after_oom =
        st.finalized_after_oom ∧
      (st.make_allocation (.ok dptr)).2 = 0) ∧
    (∀ (sv : Vulkan.VramLockState) (code : Nat),
      sv.make_allocation (.err code) = (sv, code + 1)) ∧
    (∀ (sv : Vulkan.VramLockState) (buffer memory : Nat),
      (sv.make_allocation (.ok buffer memory)).1.slices =
        sv.slices ++ [({ buffer := buffer, memory := memory,
                         size := sv.slice_bytes } : Vulkan.Slice)] ∧
      (sv.make_allocation (.ok buffer memory)).1.map = sv.map ++ ['?'] ∧
      (sv.make_allocation (.ok buffer memory)).2 = 0) := by
  exact ⟨fun st code => rfl,
    fun st dptr => ⟨rfl, rfl, rfl, rfl, rfl, rfl⟩,
    fun sv code => rfl,
    fun sv buffer memory => ⟨rfl, rfl, rfl⟩⟩

/-- C8: CLI behavior.  With no positional arguments the program runs with
device index 0 and slice size 512 MiB; `-h` or `--help` as the first
argument prints usage and exits 0; an unparsable device index, an
unparsable or zero slice size, or more than two positional arguments exit
with status 2 (non-zero) after printing usage; the slice size in mebibytes
is converted to bytes by multiplying by 1024 twice. -/
theorem C8_cli_behavior :
    (parse_cli [] = .run 0 512 (512 * 1024 * 1024)) ∧
    (∀ rest, parse_cli ("-h".toList :: rest) = .help) ∧
    (∀ rest, parse_cli ("--help".toList :: rest) = .help) ∧
    (∀ (a1 : List Char) (rest : List (List Char)),
      a1 ≠ "-h".toList → a1 ≠ "--help".toList → parse_u32 a1 = none →
      parse_cli (a1 :: rest) = .invalidArgs) ∧
    (∀ (a1 : List Char) (g : Nat), parse_u32 a1 = some g →
      parse_cli [a1] = .run g 512 (512 * 1024 * 1024)) ∧
    (∀ (a1 a2 : List Char) (rest2 : List (List Char)) (g : Nat),
      parse_u32 a1 = some g → parse_u32 a2 = none →
      parse_cli (a1 :: a2 :: rest2) = .invalidArgs) ∧
    (∀ (a1 a2 : List Char) (rest2 : List (List Char)) (g : Nat),
      parse_u32 a1 = some g → parse_u32 a2 = some 0 →
      parse_cli (a1 :: a2 :: rest2) = .invalidArgs) ∧
    (∀ (a1 a2 x : List Char) (rest2 : List (List Char)) (g m : Nat),
      parse_u32 a1 = some g → parse_u32 a2 = some m → m ≠ 0 →
      parse_cli (a1 :: a2 :: x :: rest2) = .invalidArgs) ∧
    (∀ (a1 a2 : List Char) (g m : Nat),
      parse_u32 a1 = some g → parse_u32 a2 = some m → m ≠ 0 →
      parse_cli [a1, a2] = .run g m (m * 1024 * 1024)) := by
  refine ⟨rfl, ?_, ?_, ?_, ?_, ?_, ?_, ?_, ?_⟩
  · intro rest
    simp [parse_cli]
  · intro rest
    simp [parse_cli]
  · intro a1 rest h1 h2 hp
    simp [parse_cli, hp]
    exact ⟨by simpa using h1, by simpa using h2⟩
  · intro a1 g hg
    have hne := parse_u32_ne_help a1 g hg
    have h1 : a1 ≠ "-h".toList := fun he => hne (Or.inl he)
    have h2 : a1 ≠ "--help".toList := fun he => hne (Or.inr he)
    simp [parse_cli, hg]
    exact ⟨by simpa using h1, by simpa using h2⟩
  · intro a1 a2 rest2 g hg hp
    have hne := parse_u32_ne_help a1 g hg
    have h1 : a1 ≠ "-h".toList := fun he => hne (Or.inl he)
    have h2 : a1 ≠ "--help".toList := fun he => hne (Or.inr he)
    simp [parse_cli, hg, hp]
    exact ⟨by simpa using h1, by simpa using h2⟩
  · intro a1 a2 rest2 g hg hm
    have hne := parse_u32_ne_help a1 g hg
    have h1 : a1 ≠ "-h".toList := fun he => hne (Or.inl he)
    have h2 : a1 ≠ "--help".toList := fun he => hne (Or.inr he)
    simp [parse_cli, hg, hm]
    exact ⟨by simpa using h1, by simpa using h2⟩
  · intro a1 a2 x rest2 g m hg hm hm0
    have hne := parse_u32_ne_help a1 g hg
    have h1 : a1 ≠ "-h".toList := fun he => hne (Or.inl he)
    have h2 : a1 ≠ "--help".toList := fun he => hne (Or.inr he)
    simp [parse_cli, hg, hm, hm0]
    exact ⟨by simpa using h1, by simpa using h2⟩
  · intro a1 a2 g m hg hm hm0
    have hne := parse_u32_ne_help a1 g hg
    have h1 : a1 ≠ "-h".toList := fun he => hne (Or.inl he)
    have h2 : a1 ≠ "--help".toList := fun he => hne (Or.inr he)
    simp [parse_cli, hg, hm, hm0]
    exact ⟨by simpa using h1, by simpa using h2⟩

/-- Witness for C8 at concrete command lines. -/
theorem C8_witness :
    parse_cli [] = .run 0 512 (512 * 1024 * 1024) ∧
    parse_cli ["-h".toList] = .help ∧
    parse_cli ["zz".toList] = .invalidArgs ∧
    parse_cli ["1".toList] = .run 1 512 (512 * 1024 * 1024) ∧
    parse_cli ["1".toList, "0".toList] = .invalidArgs ∧
    parse_cli ["1".toList, "256".toList, "7".toList] = .invalidArgs ∧
    parse_cli ["1".toList, "256".toList] =
      .run 1 256 (256 * 1024 * 1024) := by
  refine ⟨C8_cli_behavior.1, C8_cli_behavior.2.1 [],
    C8_cli_behavior.2.2.2.1 ("zz".toList) [] (by decide) (by decide)
      (by decide),
    C8_cli_behavior.2.2.2.2.1 ("1".toList) 1 (by decide),
    C8_cli_behavior.2.2.2.2.2.2.1 ("1".toList) ("0".toList) [] 1
      (by decide) (by decide),
    C8_cli_behavior.2.2.2.2.2.2.2.1 ("1".toList) ("256".toList)
      ("7".toList) [] 1 256 (by decide) (by decide) (by decide),
    C8_cli_behavior.2.2.2.2.2.2.2.2 ("1".toList) ("256".toList) 1 256
      (by decide) (by decide) (by decide)⟩

/-- C9: The core allocate-verify-lock state machine behaves identically in
both backend implementations: for matching input scripts (the same
sequence of allocation outcomes and the same pairs of readback buffer
contents), running the CUDA and the Vulkan session loops from the same
configuration yields matching statuses — the same glyph map, the same
verified/faulty counters, the same finalized flag and the same number of
held slices, including after reclamation; and both backends write the same
fill byte 0xA5 to every byte of a slice. -/
theorem C9_backend_equivalence :
    (∀ (g m b : Nat) (cs : List Cuda.StepInput)
      (vs : List Vulkan.StepInput),
      List.Forall₂ InputsMatch cs vs →
      StatusMatch
        (Cuda.run_session (.running (Cuda.initial_state g m b)) cs)
        (Vulkan.run_session (.running (Vulkan.initial_state g m b)) vs)) ∧
    (∀ n : Nat, 4 ∣ n →
      Vulkan.fill_bytes n = List.replicate n FILL_BYTE ∧
      memset_d8 n FILL_BYTE = List.replicate n FILL_BYTE) := by
  constructor
  · intro g m b cs vs hf
    exact run_match cs vs (.running (Cuda.initial_state g m b))
      (.running (Vulkan.initial_state g m b)) rfl hf
  · intro n hn
    exact ⟨vulkan_fill_eq n hn, memset_d8_fill n⟩

/-- Witness for C9 at concrete matching scripts: one verified slice, then
exhaustion; and the fill bytes for an 8-byte region. -/
theorem C9_witness :
    StatusMatch
      (Cuda.run_session (.running (Cuda.initial_state 0 1 4))
        [Cuda.StepInput.step (.ok 5) [1] [1],
         Cuda.StepInput.step (.err 0) [] []])
      (Vulkan.run_session (.running (Vulkan.initial_state 0 1 4))
        [Vulkan.StepInput.step (.ok 2 3) [1] [1],
         Vulkan.StepInput.step (.err 7) [] []]) ∧
    Vulkan.fill_bytes 8 = List.replicate 8 FILL_BYTE := by
  refine ⟨C9_backend_equivalence.1 0 1 4 _ _ ?_,
    (C9_backend_equivalence.2 8 (by decide)).1⟩
  refine List.Forall₂.cons ⟨trivial, rfl, rfl⟩ ?_
  refine List.Forall₂.cons ⟨trivial, rfl, rfl⟩ ?_
  exact List.Forall₂.nil

/-- C10: The allocation list and the glyph map have equal length in every
reachable running state (every successful allocation appends to both); a
detected length mismatch at reclamation time terminates the process
(`free_all_except_faulty` is fatal then, in both backends); and after
reclamation the allocation list's length equals the number of `'X'`
entries in the finalized map. -/
theorem C10_length_invariant_and_mismatch_fatal :
    (∀ st : Cuda.VramLockState, Cuda.Reachable st →
      st.allocations.length = st.map.length) ∧
    (∀ st : Cuda.VramLockState, st.allocations.length ≠ st.map.length →
      st.free_all_except_faulty = none) ∧
    (∀ sv : Vulkan.VramLockState, sv.slices.length ≠ sv.map.length →
      sv.free_all_except_faulty = none) ∧
    (∀ st : Cuda.VramLockState, Cuda.Reachable st →
      ∀ (code : Nat) (h1 h2 : List Nat) (st' : Cuda.VramLockState),
        Cuda.session_step (.running st) (.step (.err code) h1 h2) =
          .parked st' →
        st'.allocations.length = count_char st'.map 'X') := by
  refine ⟨?_, ?_, ?_, ?_⟩
  · intro st hr
    exact (Cuda.reachable_good st hr).1
  · intro st h
    simp [Cuda.VramLockState.free_all_except_faulty, h]
  · intro sv h
    simp [Vulkan.VramLockState.free_all_except_faulty, h]
  · intro st hr code h1 h2 st' hstep
    obtain ⟨hlen, _, _, _, _⟩ := Cuda.reachable_good st hr
    rw [Cuda.session_step_err st code h1 h2 hlen] at hstep
    injection hstep with hstep
    subst hstep
    show (((st.allocations.zip st.map).filter
        (fun p => p.2 == 'X')).map Prod.fst).length =
      count_char (finalize_map_after_oom st.map) 'X'
    rw [count_char_finalize]
    exact zip_filter_len st.allocations st.map hlen 'X'

/-- Witness for C10 at concrete states: the empty initial state, a
mismatched state that is fatal to reclaim, and a reachable state whose
reclamation keeps exactly the one faulty handle. -/
theorem C10_witness :
    (Cuda.initial_state 0 1 4).allocations.length =
      (Cuda.initial_state 0 1 4).map.length ∧
    (Cuda.sample [1, 2] ['#'] 1 0 false).free_all_except_faulty = none ∧
    (Cuda.sample [5] ['X'] 0 1 true).allocations.length =
      count_char (Cuda.sample [5] ['X'] 0 1 true).map 'X' := by
  refine ⟨C10_length_invariant_and_mismatch_fatal.1 _ ⟨0, 1, 4, [], rfl⟩,
    C10_length_invariant_and_mismatch_fatal.2.1 _ (by decide),
    C10_length_invariant_and_mismatch_fatal.2.2.2
      (Cuda.sample [5] ['X'] 0 1 false)
      ⟨0, 1, 4, [Cuda.StepInput.step (.ok 5) [0] [1]], by decide⟩
      0 [] [] (Cuda.sample [5] ['X'] 0 1 true) (by decide)⟩

end VramLock
